import Mathlib

/-!
Verification of the nanobot message-handling core.

This file gives a shallow embedding of the repository's core components and
proves the specified properties about them:

* the recursive schema validator and the tool registry
  (the module `nanobot/agent/tools/base.py` and `nanobot/agent/tools/registry.py`
  are not part of the provided sources, only their tests; those components are
  modelled from the specification, as marked on each definition);
* the QQ channel (`nanobot/channels/qq.py`): inbound deduplication, the
  per-conversation outbound sequencer, outbound send error handling, and the
  supervised reconnect loop, all embedded directly from the source.
-/

/-! ## Runtime values

Python runtime values as seen by the validator: strings, integers, floats,
booleans, `None`, dicts (association lists) and lists. -/

inductive Json where
  | str (s : String)
  | int (n : Int)
  | float
  | bool (b : Bool)
  | null
  | obj (fields : List (String × Json))
  | arr (elems : List Json)

/-- Modelled from the spec: the schema data model of §3 (the validator's home
module `nanobot/agent/tools/base.py` is missing from the sources).  A node is
one of `string`, `integer`, `object`, `array` with the optional constraints
`minLength`/`enum` (string), `minimum`/`maximum` (integer),
`properties`/`required` (object) and `items` (array). -/
inductive Schema where
  | str (minLength : Option Nat) (enum : Option (List String))
  | int (minimum maximum : Option Int)
  | obj (props : List (String × Schema)) (required : List String)
  | arr (items : Option Schema)

/-- Dict lookup (first binding wins, as in a Python dict with unique keys). -/
def lookupField : List (String × Json) → String → Option Json
  | [], _ => none
  | (k, v) :: rest, n => if k = n then some v else lookupField rest n

/-- Dotted path extension: `extendPath "" "count" = "count"`,
`extendPath "meta" "tag" = "meta.tag"`. -/
def extendPath (p name : String) : String :=
  if p = "" then name else p ++ "." ++ name

/-- Bracketed array-element path: `indexPath "meta.flags" 0 = "meta.flags[0]"`. -/
def indexPath (p : String) (i : Nat) : String :=
  p ++ "[" ++ toString i ++ "]"

/-- Modelled from the spec: the `enum` clause of the §4.1 string rule — if
`enum` is set and the value is not a member, emit one violation. -/
def enumCheck (enum : Option (List String)) (s p : String) : List String :=
  match enum with
  | some es =>
    if es.contains s then [] else [p ++ " must be one of " ++ String.intercalate ", " es]
  | none => []

/-- Modelled from the spec: the `required` clause of the §4.1 object rule —
for each required name absent from the value, emit `missing required <path>`. -/
def missingRequired (req : List String) (fields : List (String × Json)) (p : String) :
    List String :=
  req.filterMap fun r =>
    if (lookupField fields r).isSome then none else some ("missing required " ++ extendPath p r)

mutual

/-- Modelled from the spec: `SchemaValidator.validate` of §4.1 (its module
`nanobot/agent/tools/base.py` is missing from the sources).  Depth-first,
schema-driven; a type mismatch yields one error and stops further checks for
that node; all problems are reported as entries of the returned list. -/
def validate : Schema → Json → String → List String
  | .str minLen enum, v, p =>
    match v with
    | .str s =>
      match minLen with
      | some n =>
        if s.length < n then [p ++ " must be at least " ++ toString n ++ " chars"]
        else enumCheck enum s p
      | none => enumCheck enum s p
    | _ => [p ++ " should be string"]
  | .int lo hi, v, p =>
    match v with
    | .int n =>
      (match lo with
       | some a => if n < a then [p ++ " must be >= " ++ toString a] else []
       | none => []) ++
      (match hi with
       | some b => if b < n then [p ++ " must be <= " ++ toString b] else []
       | none => [])
    | _ => [p ++ " should be integer"]
  | .obj props req, v, p =>
    match v with
    | .obj fields => missingRequired req fields p ++ validateProps props fields p
    | _ => [p ++ " should be object"]
  | .arr items, v, p =>
    match v with
    | .arr xs =>
      match items with
      | some s => (xs.enum.map fun xi => validate s xi.2 (indexPath p xi.1)).flatten
      | none => []
    | _ => [p ++ " should be array"]

/-- Modelled from the spec: the property-recursion clause of the §4.1 object
rule — recurse into each declared property present in the value, in
declaration order; undeclared keys of the value are ignored. -/
def validateProps : List (String × Schema) → List (String × Json) → String → List String
  | [], _, _ => []
  | (k, s) :: rest, fields, p =>
    (match lookupField fields k with
     | some v => validate s v (extendPath p k)
     | none => []) ++ validateProps rest fields p

end

/-- Element-by-element validation of an array against the `items` schema,
carrying the running index.  Equal to the `enum`/`flatten` form used inside
`validate` (see `validate_arr_some`). -/
def validateItems (s : Schema) (p : String) : List Json → Nat → List String
  | [], _ => []
  | x :: xs, i => validate s x (indexPath p i) ++ validateItems s p xs (i + 1)

mutual

/-- The structural-satisfaction predicate, written from the claim's words:
the value satisfies every required, type, range, enum and length constraint
declared in the schema.  This is the specification side of the refinement
claim about `validate`; it is compared with the validator, not derived
from it. -/
def satisfies : Schema → Json → Bool
  | .str minLen enum, v =>
    match v with
    | .str s =>
      (match minLen with | some n => decide (n ≤ s.length) | none => true) &&
      (match enum with | some es => es.contains s | none => true)
    | _ => false
  | .int lo hi, v =>
    match v with
    | .int n =>
      (match lo with | some a => decide (a ≤ n) | none => true) &&
      (match hi with | some b => decide (n ≤ b) | none => true)
    | _ => false
  | .obj props req, v =>
    match v with
    | .obj fields =>
      req.all (fun r => (lookupField fields r).isSome) && satisfiesProps props fields
    | _ => false
  | .arr items, v =>
    match v with
    | .arr xs =>
      match items with
      | some s => xs.all fun x => satisfies s x
      | none => true
    | _ => false

/-- Structural satisfaction for the declared properties of an object node:
every declared property present in the value satisfies its child schema. -/
def satisfiesProps : List (String × Schema) → List (String × Json) → Bool
  | [], _ => true
  | (k, s) :: rest, fields =>
    (match lookupField fields k with | some v => satisfies s v | none => true) &&
    satisfiesProps rest fields

end

/-! ## C1: validation is empty iff the value structurally satisfies the schema -/

theorem enumCheck_eq_nil (en : Option (List String)) (s p : String) :
    enumCheck en s p = [] ↔
      (match en with | some es => es.contains s | none => true) = true := by
  cases en with
  | none => simp [enumCheck]
  | some es => by_cases h : es.contains s <;> simp [enumCheck, h]

theorem missingRequired_eq_nil (req : List String) (fields : List (String × Json))
    (p : String) :
    missingRequired req fields p = [] ↔
      req.all (fun r => (lookupField fields r).isSome) = true := by
  simp only [missingRequired, List.filterMap_eq_nil_iff, List.all_eq_true]
  constructor
  · intro h r hr
    have := h r hr
    by_cases hs : (lookupField fields r).isSome
    · exact hs
    · simp [hs] at this
  · intro h r hr
    simp [h r hr]

theorem validateProps_nil_iff (props : List (String × Schema))
    (fields : List (String × Json)) (p : String)
    (ih : ∀ ks, ks ∈ props → ∀ v p2, (validate ks.2 v p2 = [] ↔ satisfies ks.2 v = true)) :
    (validateProps props fields p = [] ↔ satisfiesProps props fields = true) := by
  induction props with
  | nil => simp [validateProps, satisfiesProps]
  | cons hd tl ihp =>
    obtain ⟨k, s⟩ := hd
    have hhd := ih (k, s) (by simp)
    have htl := ihp (fun ks hks => ih ks (by simp [hks]))
    simp only [validateProps, satisfiesProps, List.append_eq_nil, Bool.and_eq_true]
    cases hlk : lookupField fields k with
    | none => simpa using htl
    | some v => exact and_congr (hhd v (extendPath p k)) htl

theorem validateItems_eq_enumFrom (s : Schema) (p : String) (xs : List Json) (i : Nat) :
    ((xs.enumFrom i).map fun xi => validate s xi.2 (indexPath p xi.1)).flatten
      = validateItems s p xs i := by
  induction xs generalizing i with
  | nil => simp [validateItems]
  | cons x xs ihx => simp [validateItems, List.enumFrom_cons, ihx]

theorem validate_arr_some (s : Schema) (xs : List Json) (p : String) :
    validate (.arr (some s)) (.arr xs) p = validateItems s p xs 0 := by
  have h := validateItems_eq_enumFrom s p xs 0
  simpa [validate, List.enum] using h

theorem validateItems_nil_iff (s : Schema) (p : String) (xs : List Json) (i : Nat)
    (ih : ∀ v p2, validate s v p2 = [] ↔ satisfies s v = true) :
    (validateItems s p xs i = [] ↔ xs.all (fun x => satisfies s x) = true) := by
  induction xs generalizing i with
  | nil => simp [validateItems]
  | cons x xs ihx =>
    simp only [validateItems, List.append_eq_nil, List.all_cons, Bool.and_eq_true]
    exact and_congr (ih x (indexPath p i)) (ihx (i + 1))

theorem validate_nil_iff : ∀ (S : Schema) (v : Json) (p : String),
    validate S v p = [] ↔ satisfies S v = true
  | .str minLen en, v, p => by
    cases v
    case str s =>
      cases minLen with
      | none => simpa [validate, satisfies] using enumCheck_eq_nil en s p
      | some n =>
        by_cases h : s.length < n
        · simp [validate, satisfies, h, show ¬(n ≤ s.length) by omega]
        · simpa [validate, satisfies, h, show n ≤ s.length by omega] using
            enumCheck_eq_nil en s p
    all_goals simp [validate, satisfies]
  | .int lo hi, v, p => by
    cases v
    case int n =>
      cases lo with
      | none =>
        cases hi with
        | none => simp [validate, satisfies]
        | some b =>
          by_cases h : b < n
          · simp [validate, satisfies, h, show ¬(n ≤ b) by omega]
          · simp [validate, satisfies, h, show n ≤ b by omega]
      | some a =>
        cases hi with
        | none =>
          by_cases h : n < a
          · simp [validate, satisfies, h, show ¬(a ≤ n) by omega]
          · simp [validate, satisfies, h, show a ≤ n by omega]
        | some b =>
          by_cases h1 : n < a
          · by_cases h2 : b < n
            · simp [validate, satisfies, h1, h2, show ¬(a ≤ n) by omega]
            · simp [validate, satisfies, h1, h2, show ¬(a ≤ n) by omega]
          · by_cases h2 : b < n
            · simp [validate, satisfies, h1, h2, show ¬(n ≤ b) by omega]
            · simp [validate, satisfies, h1, h2, show a ≤ n by omega,
                show n ≤ b by omega]
    all_goals simp [validate, satisfies]
  | .obj props req, v, p => by
    cases v
    case obj fields =>
      have hprops := validateProps_nil_iff props fields p
        (fun ks hks v2 p2 => validate_nil_iff ks.2 v2 p2)
      simp only [validate, satisfies, List.append_eq_nil, Bool.and_eq_true]
      exact and_congr (missingRequired_eq_nil req fields p) hprops
    all_goals simp [validate, satisfies]
  | .arr items, v, p => by
    cases v
    case arr xs =>
      cases items with
      | none => simp [validate, satisfies]
      | some s =>
        have hit := validateItems_nil_iff s p xs 0
          (fun v2 p2 => validate_nil_iff s v2 p2)
        rw [validate_arr_some]
        simpa [satisfies] using hit
    all_goals simp [validate, satisfies]
termination_by S _ _ => sizeOf S
decreasing_by
  · have hm := List.sizeOf_lt_of_mem hks
    obtain ⟨k1, s1⟩ := ks
    simp_all
    omega
  · simp
    omega

/-- C1: for every schema (object/array/string/integer subset with
required/enum/minimum/maximum/minLength/items constraints) and every value,
the validation operation returns an empty sequence if and only if the value
structurally satisfies every required, type, range, enum and length
constraint declared in the schema. -/
theorem validate_empty_iff_satisfies (S : Schema) (v : Json) (p : String) :
    validate S v p = [] ↔ satisfies S v = true :=
  validate_nil_iff S v p

/-! ## C7: a type mismatch yields exactly one error and stops checks for that
node, while validation elsewhere continues -/

/-- The declared type name of a schema node, as used in its mismatch message. -/
def Schema.typeName : Schema → String
  | .str _ _ => "string"
  | .int _ _ => "integer"
  | .obj _ _ => "object"
  | .arr _ => "array"

/-- Whether a runtime value matches a schema node's declared type. -/
def typeMatches : Schema → Json → Bool
  | .str _ _, .str _ => true
  | .int _ _, .int _ => true
  | .obj _ _, .obj _ => true
  | .arr _, .arr _ => true
  | _, _ => false

theorem mem_validateProps (props : List (String × Schema)) (fields : List (String × Json))
    (p k : String) (s : Schema) (v : Json) (e : String)
    (hmem : (k, s) ∈ props) (hlk : lookupField fields k = some v)
    (he : e ∈ validate s v (extendPath p k)) :
    e ∈ validateProps props fields p := by
  induction props with
  | nil => cases hmem
  | cons hd tl ih =>
    obtain ⟨k2, s2⟩ := hd
    rw [validateProps, List.mem_append]
    rcases List.mem_cons.mp hmem with heq | htl
    · obtain ⟨rfl, rfl⟩ := Prod.mk.injEq .. ▸ heq
      rw [hlk]
      exact Or.inl he
    · exact Or.inr (ih htl)

/-- C7: if a value's runtime type mismatches the node's declared type, the
node's validation is exactly the one type error (no range/length/enum/element
checks are performed for it); and validation of sibling fields continues: any
violation reported for a declared property of an object is still reported in
the object's validation. -/
theorem type_mismatch_single_error :
    (∀ (S : Schema) (v : Json) (p : String), typeMatches S v = false →
        validate S v p = [p ++ " should be " ++ S.typeName]) ∧
    (∀ (props : List (String × Schema)) (req : List String)
        (fields : List (String × Json)) (p k : String) (s : Schema) (v : Json) (e : String),
        (k, s) ∈ props → lookupField fields k = some v →
        e ∈ validate s v (extendPath p k) →
        e ∈ validate (.obj props req) (.obj fields) p) := by
  constructor
  · intro S v p h
    cases S <;> cases v <;>
      simp_all [validate, typeMatches, Schema.typeName, String.append_assoc]
  · intro props req fields p k s v e hmem hlk he
    rw [validate, List.mem_append]
    exact Or.inr (mem_validateProps props fields p k s v e hmem hlk he)

/-- Concrete instance of `type_mismatch_single_error`, mirroring the nested
test case: the wrong-typed array element `meta.flags[0]` yields exactly its one
type error, and that error still appears in the enclosing object's validation
alongside its siblings' results. -/
theorem type_mismatch_single_error_witness :
    validate (.str none none) (.int 1) "meta.flags[0]" = ["meta.flags[0] should be string"] ∧
    "meta.flags[0] should be string" ∈
      validate
        (.obj [("tag", .str none none), ("flags", .arr (some (.str none none)))] ["tag"])
        (.obj [("flags", .arr [.int 1, .str "ok"])]) "meta" := by
  constructor
  · exact type_mismatch_single_error.1 (.str none none) (.int 1) "meta.flags[0]" (by decide)
  · exact type_mismatch_single_error.2
      [("tag", .str none none), ("flags", .arr (some (.str none none)))] ["tag"]
      [("flags", .arr [.int 1, .str "ok"])] "meta" "flags"
      (.arr (some (.str none none))) (.arr [.int 1, .str "ok"])
      "meta.flags[0] should be string"
      (List.Mem.tail _ (List.Mem.head _)) rfl (by decide)

/-! ## C2: the tool registry isolates failures -/

/-- Modelled from the spec: a §3 tool descriptor plus its invocation
capability (`nanobot/agent/tools/base.py` is missing from the sources).  The
capability produces a textual result or fails; failure is modelled as the
`Except.error` case carrying the exception text. -/
structure Tool where
  name : String
  description : String
  parameters : Schema
  run : List (String × Json) → Except String String

/-- Modelled from the spec: `Tool.validate_params` — run the validator on the
tool's declared schema and the caller-supplied argument mapping, with an empty
root path. -/
def validateParams (t : Tool) (args : List (String × Json)) : List String :=
  validate t.parameters (.obj args) ""

/-- Modelled from the spec: `ToolRegistry.get` — look up a tool by name
(`nanobot/agent/tools/registry.py` is missing from the sources). -/
def getTool (reg : List Tool) (n : String) : Option Tool :=
  reg.find? fun t => t.name == n

/-- Modelled from the spec: `ToolRegistry.execute` of §4.2.  Returns the
textual result together with the number of times the tool's invocation
capability ran (the spec's call counter).  Absence, validation failure and
invocation failure are all converted to text; the function is total, so no
exception ever propagates to the caller. -/
def executeTool (reg : List Tool) (n : String) (args : List (String × Json)) :
    String × Nat :=
  match getTool reg n with
  | none => ("Error: unknown tool " ++ n, 0)
  | some t =>
    let errs := validateParams t args
    if errs.isEmpty then
      match t.run args with
      | .ok s => (s, 1)
      | .error e => ("Error: " ++ e, 1)
    else ("Invalid parameters: " ++ String.intercalate "; " errs, 0)

/-- C2: execute with an unregistered name returns an error string (it cannot
throw: the result is a plain string in every case); if the arguments fail the
tool's schema it returns an `Invalid parameters: ...` string and the
invocation capability runs zero times; if the invocation fails, the failure is
converted to a textual error result rather than propagated. -/
theorem registry_execute_isolates_failures :
    (∀ (reg : List Tool) (n : String) (args : List (String × Json)),
        getTool reg n = none →
        executeTool reg n args = ("Error: unknown tool " ++ n, 0)) ∧
    (∀ (reg : List Tool) (n : String) (args : List (String × Json)) (t : Tool),
        getTool reg n = some t → validateParams t args ≠ [] →
        executeTool reg n args
          = ("Invalid parameters: " ++ String.intercalate "; " (validateParams t args), 0)) ∧
    (∀ (reg : List Tool) (n : String) (args : List (String × Json)) (t : Tool) (e : String),
        getTool reg n = some t → validateParams t args = [] → t.run args = .error e →
        executeTool reg n args = ("Error: " ++ e, 1)) := by
  refine ⟨?_, ?_, ?_⟩
  · intro reg n args h
    simp [executeTool, h]
  · intro reg n args t h hv
    simp [executeTool, h, List.isEmpty_iff, hv]
  · intro reg n args t e h hv hr
    simp [executeTool, h, List.isEmpty_iff, hv, hr]

/-- A sample tool mirroring the test suite's `SampleTool`: requires `query`
and `count`; its capability returns `"ok"`. -/
def sampleTool : Tool where
  name := "sample"
  description := "sample tool"
  parameters :=
    .obj [("query", .str (some 2) none),
          ("count", .int (some 1) (some 10)),
          ("mode", .str none (some ["fast", "full"]))]
      ["query", "count"]
  run := fun _ => .ok "ok"

/-- A tool whose invocation capability always fails. -/
def brokenTool : Tool where
  name := "broken"
  description := "always fails"
  parameters := .obj [] []
  run := fun _ => .error "boom"

/-- Concrete instance of `registry_execute_isolates_failures`: an unknown
name, the test suite's invalid-arguments call, and a failing invocation. -/
theorem registry_execute_isolates_failures_witness :
    executeTool [] "sample" [] = ("Error: unknown tool sample", 0) ∧
    executeTool [sampleTool] "sample" [("query", .str "hi")]
      = ("Invalid parameters: missing required count", 0) ∧
    executeTool [brokenTool] "broken" [] = ("Error: boom", 1) := by
  refine ⟨?_, ?_, ?_⟩
  · exact registry_execute_isolates_failures.1 [] "sample" [] rfl
  · have h := registry_execute_isolates_failures.2.1 [sampleTool] "sample"
      [("query", .str "hi")] sampleTool rfl (by decide)
    simpa using h
  · exact registry_execute_isolates_failures.2.2 [brokenTool] "broken" [] brokenTool "boom"
      rfl rfl rfl

/-! ## The QQ channel, embedded from `nanobot/channels/qq.py` -/

/-- Append to a Python `deque` with a maximum length `cap`: the result keeps
the `cap` most recently appended elements, evicting from the left. -/
def dequeAppend (cap : Nat) (q : List String) (x : String) : List String :=
  (q ++ [x]).drop ((q ++ [x]).length - cap)

/-- The dedup cache capacity fixed at construction in `QQChannel.__init__`
(`deque` with maximum length 1000). -/
def qqDedupCapacity : Nat := 1000

/-- The inbound deduplication step of `QQChannel._on_message`: an empty id is
never treated as seen and is not recorded; an id already in the cache is
reported as a duplicate; an unseen id is recorded, evicting the oldest entry
when the cache is at capacity. -/
def seenAndRecord (cap : Nat) (q : List String) (id0 : String) : Bool × List String :=
  if id0 = "" then (false, q)
  else if id0 ∈ q then (true, q)
  else (false, dequeAppend cap q id0)

/-- Insert a list of ids in order through `seenAndRecord`, returning the final
cache. -/
def recordAll (cap : Nat) (q : List String) (ids : List String) : List String :=
  ids.foldl (fun q2 i => (seenAndRecord cap q2 i).2) q

/-- The mutable state of a `QQChannel` instance: whether `_client` is set,
the `_running` flag, the `_processed_ids` deque (oldest first) and the
`_msg_seq` per-conversation counter table (a `defaultdict` of `int`, i.e. a
total function defaulting to 0). -/
structure QQState where
  clientInit : Bool
  running : Bool
  processedIds : List String
  msgSeq : String × String → Nat

/-- Point update of the `_msg_seq` table. -/
def updateSeq (m : String × String → Nat) (k : String × String) (n : Nat) :
    String × String → Nat :=
  fun k2 => if k2 = k then n else m k2

/-- An inbound C2C event as read by `_on_message`: `str(data.id or "")`,
`str(data.author.user_openid or "")` (empty when the sender is unresolvable)
and the raw content (`data.content or ""`). -/
structure InboundEvent where
  id : String
  userOpenid : String
  content : String

/-- What `_on_message` does with an event: drop it as a duplicate, drop it for
a missing sender, drop it for empty (stripped) content, or forward the
normalized message downstream. -/
inductive InboundOutcome where
  | dropDup
  | dropNoSender
  | dropEmptyContent
  | forwarded (senderId chatId content msgId : String)

/-- Whether the outcome forwarded a normalized event downstream. -/
def InboundOutcome.isForwarded : InboundOutcome → Bool
  | .forwarded _ _ _ _ => true
  | _ => false

/-- `QQChannel._on_message`: dedup by message id first (ids recorded before
any other check), then require a resolvable sender, then require non-empty
stripped content, and only then forward. -/
def QQChannel.onMessage (st : QQState) (ev : InboundEvent) : InboundOutcome × QQState :=
  let res := seenAndRecord qqDedupCapacity st.processedIds ev.id
  if res.1 then (.dropDup, st)
  else
    let st2 := { st with processedIds := res.2 }
    if ev.userOpenid = "" then (.dropNoSender, st2)
    else
      let c := ev.content.trim
      if c = "" then (.dropEmptyContent, st2)
      else (.forwarded ev.userOpenid ev.userOpenid c ev.id, st2)

/-- An outbound message as consumed by `QQChannel.send`: chat id, content, the
optional `reply_to` and `str(metadata.get("message_id", "") or "")`. -/
structure OutboundMessage where
  chatId : String
  content : String
  replyTo : Option String
  metadataMessageId : String

/-- `reply_msg_id = msg.reply_to or str(msg.metadata.get("message_id", "") or "")`
(Python `or`: an absent or empty `reply_to` falls back to the metadata id). -/
def replyMsgId (msg : OutboundMessage) : String :=
  match msg.replyTo with
  | some s => if s = "" then msg.metadataMessageId else s
  | none => msg.metadataMessageId

/-- `seq_key = (msg.chat_id, reply_msg_id or "__proactive__")`. -/
def seqKey (msg : OutboundMessage) : String × String :=
  (msg.chatId, if replyMsgId msg = "" then "__proactive__" else replyMsgId msg)

/-- The observable outcome of one `send` call: what the caller of `send` gets
back (`Except.ok ()` models a normal return, `Except.error` would model a
propagated exception), the log lines written, and the transport call that was
attempted (conversation key and sequence number), if any. -/
structure SendOutput where
  result : Except String Unit
  logs : List String
  attempted : Option ((String × String) × Nat)

/-- `QQChannel.send`: return at once if no client is initialized; otherwise
increment the per-key sequence counter, then submit to the transport.  The
argument `post` is the outcome of the `post_c2c_message` call (`Except.error`
models the SDK raising); any such failure is caught and logged, and `send`
returns normally. -/
def QQChannel.send (st : QQState) (msg : OutboundMessage) (post : Except String Unit) :
    SendOutput × QQState :=
  if st.clientInit then
    let key := seqKey msg
    let n := st.msgSeq key + 1
    let st2 : QQState := { st with msgSeq := updateSeq st.msgSeq key n }
    match post with
    | .ok _ => ({ result := .ok (), logs := [], attempted := some (key, n) }, st2)
    | .error e =>
      ({ result := .ok (), logs := ["Error sending QQ message: " ++ e],
         attempted := some (key, n) }, st2)
  else
    ({ result := .ok (), logs := ["QQ client not initialized"], attempted := none }, st)

/-- Run a list of sends in order (each paired with its transport outcome),
collecting the attempted transport calls. -/
def runSends : QQState → List (OutboundMessage × Except String Unit) →
    List ((String × String) × Nat) × QQState
  | st, [] => ([], st)
  | st, (m, r) :: rest =>
    let res := QQChannel.send st m r
    let tail := runSends res.2 rest
    (res.1.attempted.toList ++ tail.1, tail.2)

/-- A `QQChannel` right after `__init__` and a successful `start()`: client
set, running, empty dedup cache, all sequence counters at 0. -/
def startedQQState : QQState where
  clientInit := true
  running := true
  processedIds := []
  msgSeq := fun _ => 0

/-! ## C10: send without an initialized client returns normally and changes
nothing -/

/-- C10: if `send` is called while `_client` is `None`, it logs a warning and
returns normally — no exception, no transport call, and the state (in
particular the `_msg_seq` table) is exactly unchanged. -/
theorem send_no_client_no_effect (st : QQState) (msg : OutboundMessage)
    (post : Except String Unit) (h : st.clientInit = false) :
    QQChannel.send st msg post
      = ({ result := .ok (), logs := ["QQ client not initialized"], attempted := none },
         st) := by
  simp [QQChannel.send, h]

/-- Concrete instance of `send_no_client_no_effect`. -/
theorem send_no_client_no_effect_witness :
    QQChannel.send { startedQQState with clientInit := false }
        ⟨"chat", "hi", none, ""⟩ (.error "boom")
      = ({ result := .ok (), logs := ["QQ client not initialized"], attempted := none },
         { startedQQState with clientInit := false }) :=
  send_no_client_no_effect _ _ _ rfl

/-! ## C6 and C8: behaviour of send when the transport raises -/

/-- One step of `send` with the client initialized, in closed form: the
sequence counter for the message's key is incremented first, a transport call
with the incremented number is attempted, and `send` returns normally whatever
`post` does. -/
theorem send_clientInit_eq (st : QQState) (msg : OutboundMessage)
    (post : Except String Unit) (h : st.clientInit = true) :
    QQChannel.send st msg post
      = ({ result := .ok (),
           logs := match post with
             | .ok _ => []
             | .error e => ["Error sending QQ message: " ++ e],
           attempted := some (seqKey msg, st.msgSeq (seqKey msg) + 1) },
         { st with msgSeq := updateSeq st.msgSeq (seqKey msg) (st.msgSeq (seqKey msg) + 1) }) := by
  cases post <;> simp [QQChannel.send, h]

/-- C6 as stated is false on the code: a transport failure in `send` is *not*
reported to the caller.  At this concrete input the failing call's
caller-visible result is the plain normal return, identical to that of a
successful call — the caller cannot observe the failure (only the log
differs). -/
theorem send_failure_not_reported_counterexample :
    (QQChannel.send startedQQState ⟨"chat", "hi", none, ""⟩ (.error "boom")).1.result
      = (QQChannel.send startedQQState ⟨"chat", "hi", none, ""⟩ (.ok ())).1.result ∧
    (QQChannel.send startedQQState ⟨"chat", "hi", none, ""⟩ (.error "boom")).1.result
      = .ok () ∧
    (QQChannel.send startedQQState ⟨"chat", "hi", none, ""⟩ (.error "boom")).2
      = (QQChannel.send startedQQState ⟨"chat", "hi", none, ""⟩ (.ok ())).2 := by
  refine ⟨rfl, rfl, rfl⟩

/-- C6 (amended): any failure raised during submission to the transport is
caught: it is logged, and `send` returns normally to its caller (the
exception never propagates, so the supervisor is not crashed); the failure is
not otherwise signalled to the caller. -/
theorem send_failure_logged_and_swallowed (st : QQState) (msg : OutboundMessage)
    (e : String) (h : st.clientInit = true) :
    (QQChannel.send st msg (.error e)).1.result = .ok () ∧
    (QQChannel.send st msg (.error e)).1.logs = ["Error sending QQ message: " ++ e] := by
  simp [send_clientInit_eq st msg (.error e) h]

/-- Concrete instance of `send_failure_logged_and_swallowed`. -/
theorem send_failure_logged_and_swallowed_witness :
    (QQChannel.send startedQQState ⟨"chat", "hi", none, ""⟩ (.error "boom")).1.result
      = .ok () ∧
    (QQChannel.send startedQQState ⟨"chat", "hi", none, ""⟩ (.error "boom")).1.logs
      = ["Error sending QQ message: boom"] :=
  send_failure_logged_and_swallowed startedQQState ⟨"chat", "hi", none, ""⟩ "boom" rfl

/-- C8: the per-key counter is incremented before the delivery attempt and is
not rolled back when the transport raises: the failed send still consumes its
sequence number (the counter moves from `c` to `c + 1` and the failed attempt
carried `c + 1`), so the next successful send under the same key submits
`c + 2` — at least 2 greater than any number delivered before the failure. -/
theorem seq_consumed_on_failed_send (st : QQState) (msg msg2 : OutboundMessage)
    (e : String) (h : st.clientInit = true) (hk : seqKey msg2 = seqKey msg) :
    (QQChannel.send st msg (.error e)).2.msgSeq (seqKey msg)
        = st.msgSeq (seqKey msg) + 1 ∧
    (QQChannel.send st msg (.error e)).1.attempted
        = some (seqKey msg, st.msgSeq (seqKey msg) + 1) ∧
    (QQChannel.send (QQChannel.send st msg (.error e)).2 msg2 (.ok ())).1.attempted
        = some (seqKey msg, st.msgSeq (seqKey msg) + 2) := by
  have h2 : (QQChannel.send st msg (.error e)).2.clientInit = true := by
    rw [send_clientInit_eq st msg (.error e) h]
    exact h
  refine ⟨?_, ?_, ?_⟩
  · rw [send_clientInit_eq st msg (.error e) h]
    simp [updateSeq]
  · rw [send_clientInit_eq st msg (.error e) h]
  · rw [send_clientInit_eq _ msg2 (.ok ()) h2, hk]
    rw [send_clientInit_eq st msg (.error e) h]
    simp [updateSeq]

/-- Concrete instance of `seq_consumed_on_failed_send`. -/
theorem seq_consumed_on_failed_send_witness :
    (QQChannel.send startedQQState ⟨"chat", "hi", none, "m1"⟩ (.error "boom")).2.msgSeq
        (seqKey ⟨"chat", "hi", none, "m1"⟩)
      = startedQQState.msgSeq (seqKey ⟨"chat", "hi", none, "m1"⟩) + 1 ∧
    (QQChannel.send startedQQState ⟨"chat", "hi", none, "m1"⟩ (.error "boom")).1.attempted
      = some (seqKey ⟨"chat", "hi", none, "m1"⟩,
          startedQQState.msgSeq (seqKey ⟨"chat", "hi", none, "m1"⟩) + 1) ∧
    (QQChannel.send
        (QQChannel.send startedQQState ⟨"chat", "hi", none, "m1"⟩ (.error "boom")).2
        ⟨"chat", "again", none, "m1"⟩ (.ok ())).1.attempted
      = some (seqKey ⟨"chat", "hi", none, "m1"⟩,
          startedQQState.msgSeq (seqKey ⟨"chat", "hi", none, "m1"⟩) + 2) :=
  seq_consumed_on_failed_send startedQQState ⟨"chat", "hi", none, "m1"⟩
    ⟨"chat", "again", none, "m1"⟩ "boom" rfl rfl

/-! ## C3: for each conversation key the issued sequence numbers are 1, 2, 3, … -/

theorem runSends_filter_eq_range (sends : List (OutboundMessage × Except String Unit)) :
    ∀ (st : QQState), st.clientInit = true → ∀ k : String × String,
      ((runSends st sends).1.filter (fun e2 => decide (e2.1 = k))).map (fun e2 => e2.2)
        = List.range' (st.msgSeq k + 1)
            (sends.countP (fun mr => decide (seqKey mr.1 = k))) := by
  induction sends with
  | nil =>
    intro st h k
    simp [runSends]
  | cons hd rest ih =>
    intro st h k
    obtain ⟨m, r⟩ := hd
    have ih2 := ih { st with
      msgSeq := updateSeq st.msgSeq (seqKey m) (st.msgSeq (seqKey m) + 1) } h k
    simp only [runSends, send_clientInit_eq st m r h, Option.toList, List.cons_append,
      List.nil_append, List.countP_cons, List.filter_cons, List.map_cons]
    by_cases hk : seqKey m = k
    · subst hk
      simp [ih2, updateSeq, List.range'_succ]
    · have hk2 : ¬(k = seqKey m) := fun h2 => hk h2.symm
      simp [ih2, updateSeq, hk, hk2]

/-- C3: starting from a fresh channel, for every conversation key the
sequence numbers issued by `send` (in issuance order, across an arbitrary
interleaving of sends and transport outcomes) are exactly `1, 2, 3, …` —
strictly increasing, never reused, starting at 1 for each new key, and
unaffected by sends under any other key. -/
theorem msgSeq_per_key_trace (sends : List (OutboundMessage × Except String Unit))
    (k : String × String) :
    ((runSends startedQQState sends).1.filter (fun e2 => decide (e2.1 = k))).map
        (fun e2 => e2.2)
      = List.range' 1 (sends.countP (fun mr => decide (seqKey mr.1 = k))) :=
  runSends_filter_eq_range sends startedQQState rfl k

/-! ## C4: the dedup cache reports duplicates and evicts the oldest entry -/

/-- The last `cap` elements of a list (Python `deque` with maximum length
`cap` containing exactly the appends performed on it). -/
def lastN (cap : Nat) (l : List String) : List String :=
  l.drop (l.length - cap)

theorem lastN_of_le (cap : Nat) (l : List String) (h : l.length ≤ cap) :
    lastN cap l = l := by
  simp [lastN, Nat.sub_eq_zero_of_le h]

theorem dequeAppend_eq_lastN (cap : Nat) (q : List String) (x : String) :
    dequeAppend cap q x = lastN cap (q ++ [x]) := rfl

theorem lastN_length_le (cap : Nat) (l : List String) : (lastN cap l).length ≤ cap := by
  simp [lastN]
  omega

theorem lastN_append_lastN (cap : Nat) (l r : List String) :
    lastN cap (lastN cap l ++ r) = lastN cap (l ++ r) := by
  by_cases h : l.length ≤ cap
  · rw [lastN_of_le cap l h]
  · have hcap : cap < l.length := Nat.lt_of_not_le h
    have ha : l.length - cap ≤ l.length := Nat.sub_le _ _
    show (lastN cap l ++ r).drop ((lastN cap l ++ r).length - cap)
        = (l ++ r).drop ((l ++ r).length - cap)
    rw [show lastN cap l = l.drop (l.length - cap) from rfl,
      ← List.drop_append_of_le_length ha, List.drop_drop]
    congr 1
    simp only [List.length_drop, List.length_append]
    omega

theorem mem_dequeAppend_self (cap : Nat) (q : List String) (x : String) (h : 0 < cap) :
    x ∈ dequeAppend cap q x := by
  rw [dequeAppend_eq_lastN]
  have hle : (q ++ [x]).length - cap ≤ q.length := by
    simp only [List.length_append, List.length_cons, List.length_nil]
    omega
  rw [lastN, List.drop_append_of_le_length hle]
  exact List.mem_append_right _ (List.mem_singleton.mpr rfl)

theorem recordAll_cons (cap : Nat) (q : List String) (i : String) (ids : List String) :
    recordAll cap q (i :: ids) = recordAll cap ((seenAndRecord cap q i).2) ids := rfl

theorem recordAll_fresh (cap : Nat) :
    ∀ (ids q : List String), (∀ i ∈ ids, i ≠ "") → (q ++ ids).Nodup → q.length ≤ cap →
      recordAll cap q ids = lastN cap (q ++ ids) := by
  intro ids
  induction ids with
  | nil =>
    intro q _ _ hlen
    simp [recordAll, lastN_of_le cap q hlen]
  | cons i ids ih =>
    intro q hne hnd hlen
    have hi : i ≠ "" := hne i (by simp)
    have hiq : i ∉ q := by
      intro hmem
      have hd := (List.nodup_append.mp hnd).2.2
      exact hd hmem (by simp)
    have hstep : (seenAndRecord cap q i).2 = lastN cap (q ++ [i]) := by
      simp [seenAndRecord, hi, hiq, dequeAppend_eq_lastN]
    have hsub : List.Sublist (lastN cap (q ++ [i]) ++ ids) ((q ++ [i]) ++ ids) :=
      (List.drop_sublist _ _).append_right ids
    have hnd2 : (lastN cap (q ++ [i]) ++ ids).Nodup := by
      refine hsub.nodup ?_
      simpa using hnd
    have hlen2 : (lastN cap (q ++ [i])).length ≤ cap := lastN_length_le _ _
    rw [recordAll_cons, hstep, ih _ (fun j hj => hne j (by simp [hj])) hnd2 hlen2,
      lastN_append_lastN]
    simp

/-- C4: (first part) presenting a non-empty, not-yet-seen id reports
not-seen and records it, and presenting the same id again immediately reports
seen; (second part) after inserting capacity + 1 distinct non-empty ids into
an empty cache, the cache holds all but the oldest id — the oldest has been
evicted and is no longer reported as a duplicate when presented again. -/
theorem dedup_repeat_and_eviction :
    (∀ (cap : Nat) (q : List String) (i : String), 0 < cap → i ≠ "" → i ∉ q →
        (seenAndRecord cap q i).1 = false ∧
        (seenAndRecord cap (seenAndRecord cap q i).2 i).1 = true) ∧
    (∀ (cap : Nat) (ids : List String) (h : ids ≠ []), 0 < cap →
        ids.length = cap + 1 → ids.Nodup → (∀ i ∈ ids, i ≠ "") →
        recordAll cap [] ids = ids.drop 1 ∧
        (seenAndRecord cap (recordAll cap [] ids) (ids.head h)).1 = false) := by
  constructor
  · intro cap q i hcap hi hiq
    refine ⟨by simp [seenAndRecord, hi, hiq], ?_⟩
    have h2 : (seenAndRecord cap q i).2 = dequeAppend cap q i := by
      simp [seenAndRecord, hi, hiq]
    rw [h2]
    have hmem : i ∈ dequeAppend cap q i := mem_dequeAppend_self cap q i hcap
    simp [seenAndRecord, hi, hmem]
  · intro cap ids h hcap hlen hnd hne
    have hrec : recordAll cap [] ids = ids.drop 1 := by
      rw [recordAll_fresh cap ids [] hne (by simpa using hnd) (by simp)]
      simp [lastN, hlen]
    refine ⟨hrec, ?_⟩
    obtain ⟨i, t, rfl⟩ := List.exists_cons_of_ne_nil h
    have hhead : i ∉ t := (List.nodup_cons.mp hnd).1
    rw [hrec]
    simp [seenAndRecord, hne i (by simp), hhead]

/-- Concrete instance of `dedup_repeat_and_eviction` with capacity 2 (the
channel itself constructs the cache with `qqDedupCapacity = 1000`): "a" twice
gives not-seen then seen; after "a", "b", "c" the cache is ["b", "c"] and "a"
is fresh again. -/
theorem dedup_repeat_and_eviction_witness :
    ((seenAndRecord 2 [] "a").1 = false ∧
      (seenAndRecord 2 (seenAndRecord 2 [] "a").2 "a").1 = true) ∧
    (recordAll 2 [] ["a", "b", "c"] = ["b", "c"] ∧
      (seenAndRecord 2 (recordAll 2 [] ["a", "b", "c"])
        ((["a", "b", "c"] : List String).head (by decide))).1 = false) := by
  constructor
  · exact dedup_repeat_and_eviction.1 2 [] "a" (by decide) (by decide) (by decide)
  · exact dedup_repeat_and_eviction.2 2 ["a", "b", "c"] (by decide) (by decide)
      (by decide) (by decide) (by decide)
/-! ## C9: ids are recorded before the sender and content checks -/

theorem onMessage_fresh_eq (st : QQState) (ev : InboundEvent)
    (h1 : ev.id ≠ "") (h2 : ev.id ∉ st.processedIds) :
    QQChannel.onMessage st ev
      = (if ev.userOpenid = "" then .dropNoSender
         else if ev.content.trim = "" then .dropEmptyContent
         else .forwarded ev.userOpenid ev.userOpenid ev.content.trim ev.id,
         { st with processedIds := dequeAppend qqDedupCapacity st.processedIds ev.id }) := by
  have hsr : seenAndRecord qqDedupCapacity st.processedIds ev.id
      = (false, dequeAppend qqDedupCapacity st.processedIds ev.id) := by
    simp [seenAndRecord, h1, h2]
  by_cases hu : ev.userOpenid = "" <;> by_cases hc : ev.content.trim = "" <;>
    simp [QQChannel.onMessage, hsr, hu, hc]

theorem onMessage_dup_eq (st : QQState) (ev : InboundEvent)
    (h1 : ev.id ≠ "") (h2 : ev.id ∈ st.processedIds) :
    QQChannel.onMessage st ev = (.dropDup, st) := by
  have hsr : seenAndRecord qqDedupCapacity st.processedIds ev.id
      = (true, st.processedIds) := by
    simp [seenAndRecord, h1, h2]
  simp [QQChannel.onMessage, hsr]

/-- C9: `_on_message` records a fresh non-empty id in the dedup cache before
the sender-identity and content checks: an event with a valid id but no
resolvable sender or only-whitespace content is dropped without forwarding,
yet its id is recorded, so any later event carrying the same id — even one
with a sender and non-empty content — is dropped as a duplicate. -/
theorem onMessage_records_before_checks (st : QQState) (ev : InboundEvent)
    (h1 : ev.id ≠ "") (h2 : ev.id ∉ st.processedIds)
    (h3 : ev.userOpenid = "" ∨ ev.content.trim = "") :
    (QQChannel.onMessage st ev).1.isForwarded = false ∧
    ev.id ∈ (QQChannel.onMessage st ev).2.processedIds ∧
    ∀ ev2 : InboundEvent, ev2.id = ev.id →
      (QQChannel.onMessage (QQChannel.onMessage st ev).2 ev2).1 = .dropDup := by
  rw [onMessage_fresh_eq st ev h1 h2]
  have hmem : ev.id ∈ dequeAppend qqDedupCapacity st.processedIds ev.id :=
    mem_dequeAppend_self _ _ _ (by simp [qqDedupCapacity])
  refine ⟨?_, by simpa using hmem, ?_⟩
  · rcases h3 with hu | hc
    · simp [hu, InboundOutcome.isForwarded]
    · by_cases hu : ev.userOpenid = ""
      · simp [hu, InboundOutcome.isForwarded]
      · simp [hu, hc, InboundOutcome.isForwarded]
  · intro ev2 hid
    have hm2 : ev2.id ∈
        ({ st with processedIds := dequeAppend qqDedupCapacity st.processedIds ev.id } :
          QQState).processedIds := by
      simpa [hid] using hmem
    rw [onMessage_dup_eq _ ev2 (by simpa [hid] using h1) hm2]

/-- Concrete instance of `onMessage_records_before_checks`: an event with id
"id1" and no sender is dropped but recorded, and a later well-formed event
with id "id1" is dropped as a duplicate. -/
theorem onMessage_records_before_checks_witness :
    (QQChannel.onMessage startedQQState ⟨"id1", "", "hello"⟩).1.isForwarded = false ∧
    "id1" ∈ (QQChannel.onMessage startedQQState ⟨"id1", "", "hello"⟩).2.processedIds ∧
    (QQChannel.onMessage (QQChannel.onMessage startedQQState ⟨"id1", "", "hello"⟩).2
        ⟨"id1", "sender", "hi"⟩).1 = .dropDup := by
  obtain ⟨a, b, c⟩ := onMessage_records_before_checks startedQQState ⟨"id1", "", "hello"⟩
    (by decide) (by simp [startedQQState]) (Or.inl rfl)
  exact ⟨a, b, c ⟨"id1", "sender", "hi"⟩ rfl⟩

/-! ## C5: a connect failure followed by stop before the backoff elapses makes
no further reconnect attempt -/

/-- Control positions of `_run_bot`'s reconnect loop: at the `while` test, at
the `if self._running` test after a connect attempt ended, inside the
5-second backoff sleep, or exited. -/
inductive LoopPhase where
  | whileCheck
  | afterAttempt
  | sleeping
  | exited
deriving DecidableEq

/-- State of the reconnect loop: control position, the `_running` flag, and
how many connection attempts have been started. -/
structure LoopState where
  phase : LoopPhase
  running : Bool
  attempts : Nat
deriving DecidableEq

/-- Small-step transitions of `_run_bot` together with the environment's
`stop()` action, read off the source: the `while` test exits when `_running`
is false and otherwise starts a connect attempt; an attempt ends either by
raising `CancelledError` (`break`) or by returning or raising any other
exception, which falls through to the `if self._running` test; that test
either enters the 5-second backoff sleep or skips it and loops; the sleep
runs to completion; `stop()` may clear `_running` at any time. -/
inductive LoopStep : LoopState → LoopState → Prop where
  | exitLoop (s : LoopState) : s.phase = .whileCheck → s.running = false →
      LoopStep s { s with phase := .exited }
  | connectEnded (s : LoopState) : s.phase = .whileCheck → s.running = true →
      LoopStep s { s with phase := .afterAttempt, attempts := s.attempts + 1 }
  | connectCancelled (s : LoopState) : s.phase = .whileCheck → s.running = true →
      LoopStep s { s with phase := .exited, attempts := s.attempts + 1 }
  | backoffStart (s : LoopState) : s.phase = .afterAttempt → s.running = true →
      LoopStep s { s with phase := .sleeping }
  | skipBackoff (s : LoopState) : s.phase = .afterAttempt → s.running = false →
      LoopStep s { s with phase := .whileCheck }
  | backoffDone (s : LoopState) : s.phase = .sleeping →
      LoopStep s { s with phase := .whileCheck }
  | stopCalled (s : LoopState) : LoopStep s { s with running := false }

theorem loopStep_stopped {s s2 : LoopState} (h : LoopStep s s2)
    (hr : s.running = false) : s2.running = false ∧ s2.attempts = s.attempts := by
  cases h <;> simp_all

theorem loopSteps_stopped {s s2 : LoopState}
    (h : Relation.ReflTransGen LoopStep s s2) (hr : s.running = false) :
    s2.running = false ∧ s2.attempts = s.attempts := by
  induction h with
  | refl => exact ⟨hr, rfl⟩
  | tail _ hs ih => exact ⟨(loopStep_stopped hs ih.1).1,
      (loopStep_stopped hs ih.1).2.trans ih.2⟩

/-- C5: once a connect attempt has failed and `stop()` has cleared the running
flag before the backoff elapsed (the loop sits at the post-attempt check or in
the backoff sleep with `_running = false`), no reachable state starts another
connection attempt, and the loop reaches the exited state with the attempt
count unchanged. -/
theorem no_reconnect_after_stop (s : LoopState)
    (hph : s.phase = .afterAttempt ∨ s.phase = .sleeping) (hrun : s.running = false) :
    (∀ s2, Relation.ReflTransGen LoopStep s s2 → s2.attempts = s.attempts) ∧
    (∃ s2, Relation.ReflTransGen LoopStep s s2 ∧ s2.phase = .exited ∧
      s2.attempts = s.attempts) := by
  constructor
  · intro s2 hsteps
    exact (loopSteps_stopped hsteps hrun).2
  · rcases hph with hph | hph
    · refine ⟨{ s with phase := .exited }, ?_, rfl, rfl⟩
      have st1 : LoopStep s { s with phase := .whileCheck } :=
        LoopStep.skipBackoff s hph hrun
      have st2 : LoopStep { s with phase := .whileCheck } { s with phase := .exited } :=
        LoopStep.exitLoop _ rfl hrun
      exact Relation.ReflTransGen.tail (Relation.ReflTransGen.tail
        Relation.ReflTransGen.refl st1) st2
    · refine ⟨{ s with phase := .exited }, ?_, rfl, rfl⟩
      have st1 : LoopStep s { s with phase := .whileCheck } :=
        LoopStep.backoffDone s hph
      have st2 : LoopStep { s with phase := .whileCheck } { s with phase := .exited } :=
        LoopStep.exitLoop _ rfl hrun
      exact Relation.ReflTransGen.tail (Relation.ReflTransGen.tail
        Relation.ReflTransGen.refl st1) st2

/-- Concrete instance of `no_reconnect_after_stop`: from the backoff sleep
with `_running` already cleared after one attempt, the attempt count can never
change and the loop can reach the exited state still at one attempt. -/
theorem no_reconnect_after_stop_witness :
    (⟨.sleeping, false, 1⟩ : LoopState).attempts = 1 ∧
    (∃ s2, Relation.ReflTransGen LoopStep (⟨.sleeping, false, 1⟩ : LoopState) s2 ∧
      s2.phase = .exited ∧ s2.attempts = 1) := by
  have h := no_reconnect_after_stop ⟨.sleeping, false, 1⟩ (Or.inr rfl) rfl
  exact ⟨h.1 _ Relation.ReflTransGen.refl, h.2⟩

/-! ## Sanity checks: the model reproduces the repository's validator tests -/

theorem sanity_missing_required :
    validate sampleTool.parameters (.obj [("query", .str "hi")]) ""
      = ["missing required count"] := by decide

theorem sanity_range_and_type :
    validate sampleTool.parameters (.obj [("query", .str "hi"), ("count", .int 0)]) ""
        = ["count must be >= 1"] ∧
    validate sampleTool.parameters (.obj [("query", .str "hi"), ("count", .str "2")]) ""
        = ["count should be integer"] := by decide

theorem sanity_enum_and_min_length :
    validate sampleTool.parameters
        (.obj [("query", .str "h"), ("count", .int 2), ("mode", .str "slow")]) ""
      = ["query must be at least 2 chars", "mode must be one of fast, full"] := by decide

theorem sanity_unknown_fields_ignored :
    validate sampleTool.parameters
        (.obj [("query", .str "hi"), ("count", .int 2), ("extra", .str "x")]) ""
      = [] := by decide

theorem sanity_nested_paths :
    validate
        (.obj [("meta", .obj [("tag", .str none none),
            ("flags", .arr (some (.str none none)))] ["tag"])] [])
        (.obj [("meta", .obj [("flags", .arr [.int 1, .str "ok"])])]) ""
      = ["missing required meta.tag", "meta.flags[0] should be string"] := by decide
